import Mathlib

/-!
Shallow embedding of the Manifold comments data-access module
(`web/lib/firebase/comments.ts`) and the aggregated market-detail HTTP
handler (`web/pages/api/v0/slug/[slug].ts`).

Firestore documents are modelled as association lists of JS-style values;
queries are modelled as data (source, filters, ordering, limit) together
with an executable `runQuery` whose descending-by-creation-time ordering
is realised by a stable insertion sort (ties between equal timestamps are
resolved by document insertion order in this model).
-/

/-- Rich-text comment content; the external tiptap `JSONContent` tree is
treated as an opaque value. -/
structure JSONContent where
  json : String
deriving DecidableEq

/-- Modelled from the spec: the authoring user record from `common/user`
(not under the sources); the fields this module reads are the id, the
display name, the handle and the optional avatar URL. -/
structure User where
  id : String
  name : String
  username : String
  avatarUrl : Option String
deriving DecidableEq

/-- JS-style field values as they appear in written records and analytics
property bags. -/
inductive JsVal where
  | undef
  | null
  | str (s : String)
  | int (n : Int)
  | bool (b : Bool)
  | jcontent (c : JSONContent)
  | juser (u : User)
deriving DecidableEq

/-- `undefined`-or-string, as a JS value. -/
def jsOptStr : Option String → JsVal
  | none => JsVal.undef
  | some s => JsVal.str s

/-- `undefined`-or-boolean, as a JS value. -/
def jsOptBool : Option Bool → JsVal
  | none => JsVal.undef
  | some b => JsVal.bool b

/-- Modelled from the spec: `removeUndefinedProps` from `common/util/object`
(not under the sources) strips any field whose value is undefined. -/
def removeUndefinedProps (ps : List (String × JsVal)) : List (String × JsVal) :=
  ps.filter fun p => p.2 ≠ JsVal.undef

/-- A document reference: path `<parentCollection>/<parentId>/<sub>/<id>`. -/
structure DocRef where
  parentCollection : String
  parentId : String
  subCollection : String
  id : String
deriving DecidableEq

/-- A document persisted in the store: its path plus its fields. -/
structure StoredDoc where
  ref : DocRef
  fields : List (String × JsVal)
deriving DecidableEq

/-- Field lookup on a record; a missing field reads as undefined. -/
def getField (fields : List (String × JsVal)) (k : String) : JsVal :=
  match fields.find? (fun p => decide (p.1 = k)) with
  | some p => p.2
  | none => JsVal.undef

/-- The creation-time field of a stored document, as an integer. -/
def StoredDoc.createdTime (d : StoredDoc) : Int :=
  match getField d.fields "createdTime" with
  | JsVal.int n => n
  | _ => 0

/-- A query source: one parent-scoped sub-collection, or a database-wide
collection-group over all sub-collections of a given name. -/
inductive QSource where
  | subCollection (parentCollection parentId sub : String)
  | collectionGroup (sub : String)
deriving DecidableEq

/-- The filters this module uses: string equality and integer greater-than. -/
inductive QFilter where
  | strEq (field : String) (v : String)
  | intGt (field : String) (v : Int)
deriving DecidableEq

/-- A query value: source, filters, descending-by-creation-time ordering
flag, optional result-count bound. -/
structure CQuery where
  source : QSource
  filters : List QFilter
  orderDesc : Bool
  limitCount : Option Nat
deriving DecidableEq

/-- Whether a stored document lies in the query's source. -/
def matchesSource (d : StoredDoc) : QSource → Bool
  | QSource.subCollection pc pid sub =>
      decide (d.ref.parentCollection = pc) && decide (d.ref.parentId = pid) &&
        decide (d.ref.subCollection = sub)
  | QSource.collectionGroup sub => decide (d.ref.subCollection = sub)

/-- Whether a stored document passes one filter; a range filter only
matches documents whose field holds a value of the compared type. -/
def matchesFilter (d : StoredDoc) : QFilter → Bool
  | QFilter.strEq f v => decide (getField d.fields f = JsVal.str v)
  | QFilter.intGt f v =>
      match getField d.fields f with
      | JsVal.int n => decide (v < n)
      | _ => false

/-- Descending creation-time order: `a` may come before `b`. -/
def byCreatedTimeDesc (a b : StoredDoc) : Prop :=
  b.createdTime ≤ a.createdTime

instance : DecidableRel byCreatedTimeDesc := fun a b =>
  inferInstanceAs (Decidable (b.createdTime ≤ a.createdTime))

instance : IsTotal StoredDoc byCreatedTimeDesc :=
  ⟨fun a b => le_total b.createdTime a.createdTime⟩

instance : IsTrans StoredDoc byCreatedTimeDesc :=
  ⟨fun _ _ _ hab hbc => le_trans hbc hab⟩

/-- Execute a query against the store: filter by source and filters, order
descending by creation time, then apply the count bound if any. -/
def runQuery (db : List StoredDoc) (q : CQuery) : List StoredDoc :=
  let matched := db.filter fun d =>
    matchesSource d q.source && q.filters.all fun f => matchesFilter d f
  let sorted :=
    if q.orderDesc then List.insertionSort byCreatedTimeDesc matched else matched
  match q.limitCount with
  | some n => sorted.take n
  | none => sorted

/-- The parent-type tag object merged into the comment record:
`OnContract`, `OnGroup` or `OnPost`. -/
inductive ExtraFields where
  | onContract (contractId : String) (answerOutcome : Option String)
  | onGroup (groupId : String)
  | onPost (postId : String)
deriving DecidableEq

/-- The discriminant carried by the tag object. -/
def ExtraFields.commentType : ExtraFields → String
  | ExtraFields.onContract _ _ => "contract"
  | ExtraFields.onGroup _ => "group"
  | ExtraFields.onPost _ => "post"

/-- The tag object's own fields, in source order. -/
def ExtraFields.props : ExtraFields → List (String × JsVal)
  | ExtraFields.onContract cid ao =>
      [("commentType", JsVal.str "contract"), ("contractId", JsVal.str cid),
       ("answerOutcome", jsOptStr ao)]
  | ExtraFields.onGroup gid =>
      [("commentType", JsVal.str "group"), ("groupId", JsVal.str gid)]
  | ExtraFields.onPost pid =>
      [("postId", JsVal.str pid), ("commentType", JsVal.str "post")]

/-- The comment record assembled by `createComment`: common fields merged
with the tag object, undefined-valued fields stripped. -/
def assembleComment (extra : ExtraFields) (content : JSONContent) (user : User)
    (refId : String) (replyToCommentId : Option String) (now : Int) :
    List (String × JsVal) :=
  removeUndefinedProps
    ([("id", JsVal.str refId), ("userId", JsVal.str user.id),
      ("content", JsVal.jcontent content), ("createdTime", JsVal.int now),
      ("userName", JsVal.str user.name),
      ("userUsername", JsVal.str user.username),
      ("userAvatarUrl", jsOptStr user.avatarUrl),
      ("replyToCommentId", jsOptStr replyToCommentId)] ++ extra.props)

/-- An analytics event: name plus property bag. -/
structure TrackEvent where
  name : String
  props : List (String × JsVal)
deriving DecidableEq

/-- Observable effects of the creation routine, in order of occurrence. -/
inductive Effect where
  | tracked (e : TrackEvent)
  | wroteDoc (ref : DocRef) (fields : List (String × JsVal))
  | writeFailed (ref : DocRef)
deriving DecidableEq

/-- The property bag passed to `track`, after undefined stripping. -/
def trackProps (surfaceId : String) (extra : ExtraFields) (user : User)
    (refId : String) (replyToCommentId : Option String)
    (onContractWithBounty : Option Bool) : List (String × JsVal) :=
  removeUndefinedProps
    [("user", JsVal.juser user), ("commentId", JsVal.str refId),
     ("surfaceId", JsVal.str surfaceId),
     ("replyToCommentId", jsOptStr replyToCommentId),
     ("onContractWithBounty",
       if extra.commentType = "contract" then jsOptBool onContractWithBounty
       else JsVal.undef)]

/-- The shared creation routine: assembles the record, emits the analytics
event, then performs the point write (which may fail). Returns the ordered
effect trace and the write outcome. -/
def createComment (surfaceId : String) (extra : ExtraFields)
    (content : JSONContent) (user : User) (ref : DocRef)
    (replyToCommentId : Option String) (onContractWithBounty : Option Bool)
    (now : Int) (writeFails : Bool) : List Effect × Except String Unit :=
  let comment := assembleComment extra content user ref.id replyToCommentId now
  let ev : TrackEvent :=
    ⟨extra.commentType ++ " message",
     trackProps surfaceId extra user ref.id replyToCommentId onContractWithBounty⟩
  if writeFails then
    ([Effect.tracked ev, Effect.writeFailed ref], Except.error "write failed")
  else
    ([Effect.tracked ev, Effect.wroteDoc ref comment], Except.ok ())

/-- The comments sub-collection of a market. -/
def commentsSource (contractId : String) : QSource :=
  QSource.subCollection "contracts" contractId "comments"

/-- The comments sub-collection of a group. -/
def commentsOnGroupSource (groupId : String) : QSource :=
  QSource.subCollection "groups" groupId "comments"

/-- The comments sub-collection of a post. -/
def commentsOnPostSource (postId : String) : QSource :=
  QSource.subCollection "posts" postId "comments"

/-- `createCommentOnContract`: fresh reference under the market's comments
collection, contract tag with optional answer outcome, bounty flag. -/
def createCommentOnContract (contractId : String) (content : JSONContent)
    (user : User) (onContractWithBounty : Bool) (answerOutcome : Option String)
    (replyToCommentId : Option String) (freshId : String) (now : Int)
    (writeFails : Bool) : List Effect × Except String Unit :=
  createComment contractId (ExtraFields.onContract contractId answerOutcome)
    content user ⟨"contracts", contractId, "comments", freshId⟩
    replyToCommentId (some onContractWithBounty) now writeFails

/-- `createCommentOnGroup`. -/
def createCommentOnGroup (groupId : String) (content : JSONContent)
    (user : User) (replyToCommentId : Option String) (freshId : String)
    (now : Int) (writeFails : Bool) : List Effect × Except String Unit :=
  createComment groupId (ExtraFields.onGroup groupId) content user
    ⟨"groups", groupId, "comments", freshId⟩ replyToCommentId none now writeFails

/-- `createCommentOnPost`. -/
def createCommentOnPost (postId : String) (content : JSONContent)
    (user : User) (replyToCommentId : Option String) (freshId : String)
    (now : Int) (writeFails : Bool) : List Effect × Except String Unit :=
  createComment postId (ExtraFields.onPost postId) content user
    ⟨"posts", postId, "comments", freshId⟩ replyToCommentId none now writeFails

/-- `setDoc`: point write, overwriting any existing document at the path. -/
def setDocIn (db : List StoredDoc) (ref : DocRef)
    (fields : List (String × JsVal)) : List StoredDoc :=
  if db.any (fun d => decide (d.ref = ref)) then
    db.map fun d => if d.ref = ref then ⟨ref, fields⟩ else d
  else db ++ [⟨ref, fields⟩]

/-- Apply one effect to the store; analytics effects do not touch it. -/
def applyEffect (db : List StoredDoc) : Effect → List StoredDoc
  | Effect.wroteDoc ref fields => setDocIn db ref fields
  | _ => db

/-- Apply an effect trace to the store, in order. -/
def applyEffects (db : List StoredDoc) (effs : List Effect) : List StoredDoc :=
  effs.foldl applyEffect db

/-- JS truthiness of the optional `maxCount` number: undefined and 0 are
falsy. -/
def jsTruthy : Option Nat → Bool
  | none => false
  | some k => k != 0

/-- `listAllComments`: the market's comments ordered descending; the limit
clause is applied only when `maxCount` is truthy. -/
def listAllComments (db : List StoredDoc) (contractId : String)
    (maxCount : Option Nat) : List StoredDoc :=
  let q : CQuery := ⟨commentsSource contractId, [], true, none⟩
  let limitedQ := if jsTruthy maxCount then { q with limitCount := maxCount } else q
  runQuery db limitedQ

/-- `listAllCommentsOnGroup`. -/
def listAllCommentsOnGroup (db : List StoredDoc) (groupId : String) :
    List StoredDoc :=
  runQuery db ⟨commentsOnGroupSource groupId, [], true, none⟩

/-- `listAllCommentsOnPost`. -/
def listAllCommentsOnPost (db : List StoredDoc) (postId : String) :
    List StoredDoc :=
  runQuery db ⟨commentsOnPostSource postId, [], true, none⟩

/-- All documents in a market's comments sub-collection, in store order. -/
def contractComments (db : List StoredDoc) (contractId : String) :
    List StoredDoc :=
  db.filter fun d => matchesSource d (commentsSource contractId)

/-- One day in milliseconds. -/
def DAY_IN_MS : Int := 24 * 60 * 60 * 1000

/-- `recentCommentsQuery`: built once at module construction time from the
construction-time clock; the bound never changes afterwards. -/
def recentCommentsQuery (constructionNow : Int) : CQuery :=
  ⟨QSource.collectionGroup "comments",
   [QFilter.intGt "createdTime" (constructionNow - 3 * DAY_IN_MS)], true, none⟩

/-- `getRecentComments`: one-shot execution of the fixed recent query. -/
def getRecentComments (constructionNow : Int) (db : List StoredDoc) :
    List StoredDoc :=
  runQuery db (recentCommentsQuery constructionNow)

/-- The query value `listenForRecentComments` subscribes with. -/
def listenForRecentCommentsQuery (constructionNow : Int) : CQuery :=
  recentCommentsQuery constructionNow

/-- `getUserCommentsQuery`: reusable collection-group query for one user's
market comments, not executed by the factory itself. -/
def getUserCommentsQuery (userId : String) : CQuery :=
  ⟨QSource.collectionGroup "comments",
   [QFilter.strEq "userId" userId, QFilter.strEq "commentType" "contract"],
   true, none⟩

/-- The query value `listenForLiveComments` subscribes with. -/
def liveCommentsQuery (count : Nat) : CQuery :=
  ⟨QSource.collectionGroup "comments", [], true, some count⟩

/-- Modelled from the spec: a bet record; the bets module is not under the
sources and the handler treats bets opaquely. -/
structure Bet where
  id : String
deriving DecidableEq

/-- Modelled from the spec: the market entity resolved from a slug; only
its internal id, slug and opaque public fields matter to the handler. -/
structure Contract where
  id : String
  slug : String
  data : List (String × JsVal)
deriving DecidableEq

/-- Modelled from the spec: `toFullMarket` projects the market onto its
full public field set. -/
structure FullMarketBase where
  id : String
  slug : String
  data : List (String × JsVal)
deriving DecidableEq

/-- Modelled from the spec: the market's full public projection. -/
def toFullMarket (c : Contract) : FullMarketBase :=
  ⟨c.id, c.slug, c.data⟩

/-- The JSON body of the slug endpoint's response. -/
inductive ApiBody where
  | apiError (msg : String)
  | fullMarket (comments : List StoredDoc) (bets : List Bet)
      (market : FullMarketBase)
deriving DecidableEq

/-- The unrestricted cross-origin policy: any origin permitted. -/
def CORS_UNRESTRICTED : List (String × String) :=
  [("Access-Control-Allow-Origin", "*")]

/-- Modelled from the spec: `applyCorsHeaders` (not under the sources)
applies the given cross-origin policy headers to the response. -/
def applyCorsHeaders (policy : List (String × String)) :
    List (String × String) :=
  policy

/-- The handler's collaborators: the comment store and, modelled from the
spec, the slug resolver and the per-market full bet list. -/
structure Env where
  commentsDb : List StoredDoc
  listAllBets : String → List Bet
  getContractFromSlug : String → Option Contract

/-- The handler's observable outcome: status, headers, body, and how many
bets/comments fetches were performed. -/
structure ApiResponse where
  status : Nat
  headers : List (String × String)
  body : ApiBody
  betsFetches : Nat
  commentsFetches : Nat
deriving DecidableEq

/-- The slug endpoint handler: CORS first, then slug resolution; a 404
with a fixed error body when no market matches, otherwise both fetches
joined, the no-cache directive, and the combined 200 body. -/
def handler (env : Env) (slug : String) : ApiResponse :=
  let headers0 := applyCorsHeaders CORS_UNRESTRICTED
  match env.getContractFromSlug slug with
  | none => ⟨404, headers0, ApiBody.apiError "Contract not found", 0, 0⟩
  | some contract =>
      let bets := env.listAllBets contract.id
      let comments := listAllComments env.commentsDb contract.id none
      ⟨200, headers0 ++ [("Cache-Control", "max-age=0")],
       ApiBody.fullMarket comments bets (toFullMarket contract), 1, 1⟩

/-- A sample market comment document (older). -/
def exDoc1 : StoredDoc :=
  ⟨⟨"contracts", "c1", "comments", "cm1"⟩,
   [("id", JsVal.str "cm1"), ("createdTime", JsVal.int 100)]⟩

/-- A sample market comment document (newer). -/
def exDoc2 : StoredDoc :=
  ⟨⟨"contracts", "c1", "comments", "cm2"⟩,
   [("id", JsVal.str "cm2"), ("createdTime", JsVal.int 200)]⟩

/-- A sample comment store holding two comments of market `c1`. -/
def exDb : List StoredDoc := [exDoc1, exDoc2]

/-- A sample user. -/
def exUser : User := ⟨"u1", "Alice", "alice", none⟩

/-- A sample rich-text payload. -/
def exContent : JSONContent := ⟨"hello"⟩

/-- A sample environment whose slug resolver matches nothing. -/
def exEnvEmpty : Env := ⟨[], fun _ => [], fun _ => none⟩

/-- A sample market. -/
def exContract : Contract := ⟨"c1", "my-market", []⟩

/-- A sample environment that resolves the slug `my-market`. -/
def exEnvFull : Env :=
  ⟨exDb, fun _ => [⟨"b1"⟩],
   fun s => if s = "my-market" then some exContract else none⟩

/-- A sample contract comment authored by user `u1`. -/
def exUserDoc : StoredDoc :=
  ⟨⟨"contracts", "c1", "comments", "cm3"⟩,
   [("userId", JsVal.str "u1"), ("commentType", JsVal.str "contract"),
    ("createdTime", JsVal.int 150)]⟩

/-- A sample group comment authored by the same user `u1`. -/
def exGroupDoc : StoredDoc :=
  ⟨⟨"groups", "g1", "comments", "cm4"⟩,
   [("userId", JsVal.str "u1"), ("commentType", JsVal.str "group"),
    ("createdTime", JsVal.int 160)]⟩

/-- A sample store holding one contract comment and one group comment by
the same author. -/
def exDb2 : List StoredDoc := [exUserDoc, exGroupDoc]

lemma mem_runQuery {db : List StoredDoc} {q : CQuery} {d : StoredDoc}
    (hd : d ∈ runQuery db q) :
    d ∈ db ∧ matchesSource d q.source = true ∧
      ∀ f ∈ q.filters, matchesFilter d f = true := by
  unfold runQuery at hd
  simp only [] at hd
  have hmem : d ∈ (if q.orderDesc then
      List.insertionSort byCreatedTimeDesc (db.filter fun d =>
        matchesSource d q.source && q.filters.all fun f => matchesFilter d f)
    else
      db.filter fun d =>
        matchesSource d q.source && q.filters.all fun f => matchesFilter d f) := by
    cases hq : q.limitCount with
    | none => rw [hq] at hd; exact hd
    | some n => rw [hq] at hd; exact List.take_subset n _ hd
  have hfil : d ∈ db.filter fun d =>
      matchesSource d q.source && q.filters.all fun f => matchesFilter d f := by
    by_cases ho : q.orderDesc
    · rw [if_pos ho] at hmem
      exact (List.mem_insertionSort byCreatedTimeDesc).mp hmem
    · rw [if_neg ho] at hmem
      exact hmem
  rw [List.mem_filter] at hfil
  obtain ⟨hdb, hp⟩ := hfil
  rw [Bool.and_eq_true] at hp
  refine ⟨hdb, hp.1, ?_⟩
  intro f hf
  exact List.all_eq_true.mp hp.2 f hf

lemma sorted_runQuery (db : List StoredDoc) (q : CQuery) (ho : q.orderDesc = true) :
    (runQuery db q).Sorted byCreatedTimeDesc := by
  unfold runQuery
  rw [ho]
  simp only [if_true]
  cases q.limitCount with
  | none => exact List.sorted_insertionSort byCreatedTimeDesc _
  | some n =>
      exact (List.sorted_insertionSort byCreatedTimeDesc _).sublist (List.take_sublist n _)

lemma head_insertionSort_max {l : List StoredDoc} {x : StoredDoc} (hx : x ∈ l)
    (hmax : ∀ y ∈ l, y ≠ x → y.createdTime < x.createdTime) :
    (List.insertionSort byCreatedTimeDesc l).head? = some x := by
  have hs : (List.insertionSort byCreatedTimeDesc l).Sorted byCreatedTimeDesc :=
    List.sorted_insertionSort byCreatedTimeDesc l
  have hmem : x ∈ List.insertionSort byCreatedTimeDesc l :=
    (List.mem_insertionSort byCreatedTimeDesc).mpr hx
  cases hesort : List.insertionSort byCreatedTimeDesc l with
  | nil => rw [hesort] at hmem; exact absurd hmem (List.not_mem_nil x)
  | cons a t =>
      rw [hesort] at hmem hs
      by_cases hax : a = x
      · rw [hax]; rfl
      · have hxt : x ∈ t := by
          rcases List.mem_cons.mp hmem with h | h
          · exact absurd h.symm hax
          · exact h
        have h1 : byCreatedTimeDesc a x := List.rel_of_sorted_cons hs x hxt
        have ha_mem : a ∈ l := by
          have : a ∈ List.insertionSort byCreatedTimeDesc l := by
            rw [hesort]; exact List.mem_cons_self a t
          exact (List.mem_insertionSort byCreatedTimeDesc).mp this
        have h2 : a.createdTime < x.createdTime := hmax a ha_mem hax
        exact absurd h1 (not_le.mpr h2)

lemma getField_assemble_createdTime (extra : ExtraFields) (content : JSONContent)
    (user : User) (refId : String) (replyTo : Option String) (now : Int) :
    getField (assembleComment extra content user refId replyTo now) "createdTime"
      = JsVal.int now := by
  simp [assembleComment, removeUndefinedProps, getField]

lemma setDocIn_fresh {db : List StoredDoc} {ref : DocRef}
    (fields : List (String × JsVal)) (hfresh : ∀ d ∈ db, d.ref ≠ ref) :
    setDocIn db ref fields = db ++ [⟨ref, fields⟩] := by
  unfold setDocIn
  have : db.any (fun d => decide (d.ref = ref)) = false := by
    rw [List.any_eq_false]
    intro d hd
    simpa using hfresh d hd
  rw [this]
  simp

lemma runQuery_none (db : List StoredDoc) (src : QSource) :
    runQuery db ⟨src, [], true, none⟩
      = List.insertionSort byCreatedTimeDesc (db.filter fun d => matchesSource d src) := by
  simp [runQuery]

lemma runQuery_limit (db : List StoredDoc) (src : QSource) (n : Nat) :
    runQuery db ⟨src, [], true, some n⟩
      = (List.insertionSort byCreatedTimeDesc
          (db.filter fun d => matchesSource d src)).take n := by
  simp [runQuery]

lemma listAllComments_some_pos (db : List StoredDoc) (cid : String) {n : Nat}
    (hn : 0 < n) :
    listAllComments db cid (some n)
      = runQuery db ⟨commentsSource cid, [], true, some n⟩ := by
  have hT : jsTruthy (some n) = true := by
    simp [jsTruthy]
    omega
  simp [listAllComments, hT]

lemma listAllComments_none_eq (db : List StoredDoc) (cid : String) :
    listAllComments db cid none
      = runQuery db ⟨commentsSource cid, [], true, none⟩ := by
  simp [listAllComments, jsTruthy]

/-- C1 (amended): for every supplied positive maximum count `n`,
`listAllComments` returns exactly `min n total` results ordered by creation
time descending; with the count omitted it returns all of the market's
comments (up to order), ordered descending. -/
theorem listAllComments_maxCount_spec (db : List StoredDoc) (cid : String)
    (n : Nat) (hn : 0 < n) :
    (listAllComments db cid (some n)).length
        = min n (contractComments db cid).length
    ∧ (listAllComments db cid (some n)).Sorted byCreatedTimeDesc
    ∧ (listAllComments db cid none).Perm (contractComments db cid)
    ∧ (listAllComments db cid none).Sorted byCreatedTimeDesc := by
  rw [listAllComments_some_pos db cid hn, listAllComments_none_eq db cid,
    runQuery_limit, runQuery_none]
  refine ⟨?_, ?_, ?_, ?_⟩
  · rw [List.length_take,
      (List.perm_insertionSort byCreatedTimeDesc _).length_eq]
    rfl
  · exact (List.sorted_insertionSort byCreatedTimeDesc _).sublist
      (List.take_sublist n _)
  · exact List.perm_insertionSort byCreatedTimeDesc _
  · exact List.sorted_insertionSort byCreatedTimeDesc _

/-- C1 witness: the amended statement instantiated on a concrete store
with two comments and `maxCount = 1`. -/
theorem listAllComments_maxCount_spec_witness :
    (0 < 1)
    ∧ ((listAllComments exDb "c1" (some 1)).length
          = min 1 (contractComments exDb "c1").length
        ∧ (listAllComments exDb "c1" (some 1)).Sorted byCreatedTimeDesc
        ∧ (listAllComments exDb "c1" none).Perm (contractComments exDb "c1")
        ∧ (listAllComments exDb "c1" none).Sorted byCreatedTimeDesc) :=
  ⟨by decide, listAllComments_maxCount_spec exDb "c1" 1 (by decide)⟩

/-- C1 counterexample to the claim as stated: with a supplied maximum
count of 0 the query is not bounded (0 is falsy), so a store holding two
comments yields two results, more than the supplied maximum. -/
theorem listAllComments_maxCount_zero_cex :
    (listAllComments exDb "c1" (some 0)).length = 2
    ∧ ¬ (listAllComments exDb "c1" (some 0)).length ≤ 0 := by
  decide

/-- C10: a supplied `maxCount` of 0 is treated exactly like an omitted
count: no limit clause is applied and all of the market's comments are
returned, not zero results. -/
theorem listAllComments_zero_unbounded (db : List StoredDoc) (cid : String) :
    listAllComments db cid (some 0) = listAllComments db cid none
    ∧ (listAllComments db cid (some 0)).Perm (contractComments db cid) := by
  have h0 : listAllComments db cid (some 0) = listAllComments db cid none := by
    simp [listAllComments, jsTruthy]
  refine ⟨h0, ?_⟩
  rw [h0, listAllComments_none_eq db cid, runQuery_none]
  exact List.perm_insertionSort byCreatedTimeDesc _

lemma createdTime_mk (ref : DocRef) (fields : List (String × JsVal)) (now : Int)
    (htime : getField fields "createdTime" = JsVal.int now) :
    StoredDoc.createdTime ⟨ref, fields⟩ = now := by
  unfold StoredDoc.createdTime
  rw [htime]

lemma create_then_list_head (db : List StoredDoc) (src : QSource)
    (ref : DocRef) (fields : List (String × JsVal)) (now : Int)
    (hfresh : ∀ d ∈ db, d.ref ≠ ref)
    (hsrc : matchesSource ⟨ref, fields⟩ src = true)
    (htime : getField fields "createdTime" = JsVal.int now)
    (hold : ∀ d ∈ db, matchesSource d src = true → d.createdTime < now) :
    (runQuery (setDocIn db ref fields) ⟨src, [], true, none⟩).head?
      = some ⟨ref, fields⟩ := by
  rw [setDocIn_fresh fields hfresh, runQuery_none]
  apply head_insertionSort_max
  · rw [List.mem_filter]
    exact ⟨List.mem_append_right _ (List.mem_singleton.mpr rfl), hsrc⟩
  · intro y hy hyne
    rw [List.mem_filter] at hy
    obtain ⟨hydb, hysrc⟩ := hy
    rcases List.mem_append.mp hydb with h | h
    · rw [createdTime_mk ref fields now htime]
      exact hold y h hysrc
    · exact absurd (List.mem_singleton.mp h) hyne

lemma applyEffects_createComment (db : List StoredDoc) (sid : String)
    (extra : ExtraFields) (content : JSONContent) (user : User) (ref : DocRef)
    (replyTo : Option String) (bounty : Option Bool) (now : Int) :
    applyEffects db
        (createComment sid extra content user ref replyTo bounty now false).1
      = setDocIn db ref (assembleComment extra content user ref.id replyTo now) :=
  rfl

/-- C2: for each of the three parent types, creating a comment (with a
successful write on a fresh document id) and then one-shot-listing that
parent's comments yields the newly created comment as the first element,
provided every pre-existing comment of that parent is strictly older. -/
theorem create_then_list_new_comment_first :
    (∀ (db : List StoredDoc) (cid : String) (content : JSONContent)
        (user : User) (bounty : Bool) (ao replyTo : Option String)
        (freshId : String) (now : Int),
      (∀ d ∈ db, d.ref ≠ (⟨"contracts", cid, "comments", freshId⟩ : DocRef)) →
      (∀ d ∈ db, matchesSource d (commentsSource cid) = true →
          d.createdTime < now) →
      (listAllComments
          (applyEffects db
            (createCommentOnContract cid content user bounty ao replyTo
              freshId now false).1) cid none).head?
        = some ⟨⟨"contracts", cid, "comments", freshId⟩,
            assembleComment (ExtraFields.onContract cid ao) content user
              freshId replyTo now⟩)
    ∧ (∀ (db : List StoredDoc) (gid : String) (content : JSONContent)
        (user : User) (replyTo : Option String) (freshId : String) (now : Int),
      (∀ d ∈ db, d.ref ≠ (⟨"groups", gid, "comments", freshId⟩ : DocRef)) →
      (∀ d ∈ db, matchesSource d (commentsOnGroupSource gid) = true →
          d.createdTime < now) →
      (listAllCommentsOnGroup
          (applyEffects db
            (createCommentOnGroup gid content user replyTo freshId now
              false).1) gid).head?
        = some ⟨⟨"groups", gid, "comments", freshId⟩,
            assembleComment (ExtraFields.onGroup gid) content user freshId
              replyTo now⟩)
    ∧ (∀ (db : List StoredDoc) (pid : String) (content : JSONContent)
        (user : User) (replyTo : Option String) (freshId : String) (now : Int),
      (∀ d ∈ db, d.ref ≠ (⟨"posts", pid, "comments", freshId⟩ : DocRef)) →
      (∀ d ∈ db, matchesSource d (commentsOnPostSource pid) = true →
          d.createdTime < now) →
      (listAllCommentsOnPost
          (applyEffects db
            (createCommentOnPost pid content user replyTo freshId now
              false).1) pid).head?
        = some ⟨⟨"posts", pid, "comments", freshId⟩,
            assembleComment (ExtraFields.onPost pid) content user freshId
              replyTo now⟩) := by
  refine ⟨?_, ?_, ?_⟩
  · intro db cid content user bounty ao replyTo freshId now hfresh hold
    rw [createCommentOnContract, applyEffects_createComment,
      listAllComments_none_eq]
    exact create_then_list_head db (commentsSource cid) _ _ now hfresh
      (by simp [matchesSource, commentsSource])
      (getField_assemble_createdTime _ content user freshId replyTo now) hold
  · intro db gid content user replyTo freshId now hfresh hold
    rw [createCommentOnGroup, applyEffects_createComment, listAllCommentsOnGroup]
    exact create_then_list_head db (commentsOnGroupSource gid) _ _ now hfresh
      (by simp [matchesSource, commentsOnGroupSource])
      (getField_assemble_createdTime _ content user freshId replyTo now) hold
  · intro db pid content user replyTo freshId now hfresh hold
    rw [createCommentOnPost, applyEffects_createComment, listAllCommentsOnPost]
    exact create_then_list_head db (commentsOnPostSource pid) _ _ now hfresh
      (by simp [matchesSource, commentsOnPostSource])
      (getField_assemble_createdTime _ content user freshId replyTo now) hold

/-- C2 witness: the statement instantiated on the empty store for each of
the three parent types. -/
theorem create_then_list_new_comment_first_witness :
    ((listAllComments
        (applyEffects []
          (createCommentOnContract "c1" exContent exUser false none none
            "cm9" 500 false).1) "c1" none).head?
      = some ⟨⟨"contracts", "c1", "comments", "cm9"⟩,
          assembleComment (ExtraFields.onContract "c1" none) exContent exUser
            "cm9" none 500⟩)
    ∧ ((listAllCommentsOnGroup
        (applyEffects []
          (createCommentOnGroup "g1" exContent exUser none "cm9" 500
            false).1) "g1").head?
      = some ⟨⟨"groups", "g1", "comments", "cm9"⟩,
          assembleComment (ExtraFields.onGroup "g1") exContent exUser "cm9"
            none 500⟩)
    ∧ ((listAllCommentsOnPost
        (applyEffects []
          (createCommentOnPost "p1" exContent exUser none "cm9" 500
            false).1) "p1").head?
      = some ⟨⟨"posts", "p1", "comments", "cm9"⟩,
          assembleComment (ExtraFields.onPost "p1") exContent exUser "cm9"
            none 500⟩) :=
  ⟨create_then_list_new_comment_first.1 [] "c1" exContent exUser false none
      none "cm9" 500 (by decide) (by decide),
   create_then_list_new_comment_first.2.1 [] "g1" exContent exUser none
      "cm9" 500 (by decide) (by decide),
   create_then_list_new_comment_first.2.2 [] "p1" exContent exUser none
      "cm9" 500 (by decide) (by decide)⟩

/-- C3: when the slug resolves to no market, the handler responds 404 with
body error Contract not found, and performs no bets fetch and no comments
fetch. -/
theorem handler_not_found (env : Env) (slug : String)
    (h : env.getContractFromSlug slug = none) :
    (handler env slug).status = 404
    ∧ (handler env slug).body = ApiBody.apiError "Contract not found"
    ∧ (handler env slug).betsFetches = 0
    ∧ (handler env slug).commentsFetches = 0 := by
  unfold handler
  rw [h]
  exact ⟨rfl, rfl, rfl, rfl⟩

/-- C3 witness: a concrete environment resolving no slug. -/
theorem handler_not_found_witness :
    exEnvEmpty.getContractFromSlug "unknown-slug" = none
    ∧ ((handler exEnvEmpty "unknown-slug").status = 404
        ∧ (handler exEnvEmpty "unknown-slug").body
            = ApiBody.apiError "Contract not found"
        ∧ (handler exEnvEmpty "unknown-slug").betsFetches = 0
        ∧ (handler exEnvEmpty "unknown-slug").commentsFetches = 0) :=
  ⟨rfl, handler_not_found exEnvEmpty "unknown-slug" rfl⟩

/-- C4: when the slug resolves to a market, the handler responds 200 with
the no-cache header, its body combines the market's public projection with
the full bet list and the full comment list (unbounded, ordered most
recent first), and both fetches are performed before the response. -/
theorem handler_found (env : Env) (slug : String) (c : Contract)
    (h : env.getContractFromSlug slug = some c) :
    (handler env slug).status = 200
    ∧ ("Cache-Control", "max-age=0") ∈ (handler env slug).headers
    ∧ (handler env slug).body
        = ApiBody.fullMarket (listAllComments env.commentsDb c.id none)
            (env.listAllBets c.id) (toFullMarket c)
    ∧ (listAllComments env.commentsDb c.id none).Perm
        (contractComments env.commentsDb c.id)
    ∧ (listAllComments env.commentsDb c.id none).Sorted byCreatedTimeDesc
    ∧ (handler env slug).betsFetches = 1
    ∧ (handler env slug).commentsFetches = 1 := by
  unfold handler
  rw [h]
  refine ⟨rfl, ?_, rfl, ?_, ?_, rfl, rfl⟩
  · simp [applyCorsHeaders, CORS_UNRESTRICTED]
  · rw [listAllComments_none_eq, runQuery_none]
    exact List.perm_insertionSort byCreatedTimeDesc _
  · rw [listAllComments_none_eq, runQuery_none]
    exact List.sorted_insertionSort byCreatedTimeDesc _

/-- C4 witness: a concrete environment resolving the slug `my-market`. -/
theorem handler_found_witness :
    exEnvFull.getContractFromSlug "my-market" = some exContract
    ∧ ((handler exEnvFull "my-market").status = 200
        ∧ ("Cache-Control", "max-age=0") ∈ (handler exEnvFull "my-market").headers
        ∧ (handler exEnvFull "my-market").body
            = ApiBody.fullMarket
                (listAllComments exEnvFull.commentsDb exContract.id none)
                (exEnvFull.listAllBets exContract.id) (toFullMarket exContract)
        ∧ (listAllComments exEnvFull.commentsDb exContract.id none).Perm
            (contractComments exEnvFull.commentsDb exContract.id)
        ∧ (listAllComments exEnvFull.commentsDb exContract.id none).Sorted
            byCreatedTimeDesc
        ∧ (handler exEnvFull "my-market").betsFetches = 1
        ∧ (handler exEnvFull "my-market").commentsFetches = 1) :=
  ⟨rfl, handler_found exEnvFull "my-market" exContract rfl⟩

/-- C5 (amended): every response of the slug endpoint carries the
permissive any-origin CORS header; the 200 success response additionally
carries the no-cache directive, but the 404 not-found response does not
set a cache directive. -/
theorem handler_headers_spec (env : Env) (slug : String) :
    ("Access-Control-Allow-Origin", "*") ∈ (handler env slug).headers
    ∧ ((handler env slug).status = 200 →
        ("Cache-Control", "max-age=0") ∈ (handler env slug).headers)
    ∧ ((handler env slug).status = 404 →
        ("Cache-Control", "max-age=0") ∉ (handler env slug).headers) := by
  unfold handler
  cases env.getContractFromSlug slug with
  | none =>
      refine ⟨by simp [applyCorsHeaders, CORS_UNRESTRICTED], ?_, ?_⟩
      · intro h
        exact absurd h (by simp)
      · intro _
        simp [applyCorsHeaders, CORS_UNRESTRICTED]
  | some c =>
      refine ⟨by simp [applyCorsHeaders, CORS_UNRESTRICTED], ?_, ?_⟩
      · intro _
        simp [applyCorsHeaders, CORS_UNRESTRICTED]
      · intro h
        exact absurd h (by simp)

/-- C5 witness: the amended statement instantiated on both a resolving and
a non-resolving environment, with the implications discharged. -/
theorem handler_headers_spec_witness :
    (("Access-Control-Allow-Origin", "*") ∈ (handler exEnvEmpty "u").headers
      ∧ ("Cache-Control", "max-age=0") ∉ (handler exEnvEmpty "u").headers)
    ∧ (("Access-Control-Allow-Origin", "*")
          ∈ (handler exEnvFull "my-market").headers
      ∧ ("Cache-Control", "max-age=0")
          ∈ (handler exEnvFull "my-market").headers) :=
  ⟨⟨(handler_headers_spec exEnvEmpty "u").1,
    (handler_headers_spec exEnvEmpty "u").2.2 rfl⟩,
   ⟨(handler_headers_spec exEnvFull "my-market").1,
    (handler_headers_spec exEnvFull "my-market").2.1 rfl⟩⟩

/-- C5 counterexample to the claim as stated: the 404 not-found response
of a concrete environment carries the CORS header but no no-cache
directive, so not every response carries a no-cache directive. -/
theorem handler_404_no_cache_cex :
    (handler exEnvEmpty "unknown-slug").status = 404
    ∧ ("Access-Control-Allow-Origin", "*")
        ∈ (handler exEnvEmpty "unknown-slug").headers
    ∧ ("Cache-Control", "max-age=0")
        ∉ (handler exEnvEmpty "unknown-slug").headers := by
  refine ⟨rfl, ?_, ?_⟩
  · simp [handler, exEnvEmpty, applyCorsHeaders, CORS_UNRESTRICTED]
  · simp [handler, exEnvEmpty, applyCorsHeaders, CORS_UNRESTRICTED]

lemma jsOptStr_ne_null (o : Option String) : jsOptStr o ≠ JsVal.null := by
  cases o <;> simp [jsOptStr]

lemma jsOptBool_ne_null (o : Option Bool) : jsOptBool o ≠ JsVal.null := by
  cases o <;> simp [jsOptBool]

lemma assemble_no_null (extra : ExtraFields) (content : JSONContent)
    (user : User) (refId : String) (replyTo : Option String) (now : Int) :
    ∀ p ∈ assembleComment extra content user refId replyTo now,
      p.2 ≠ JsVal.undef ∧ p.2 ≠ JsVal.null := by
  intro p hp
  unfold assembleComment removeUndefinedProps at hp
  rw [List.mem_filter] at hp
  obtain ⟨hmem, hval⟩ := hp
  refine ⟨of_decide_eq_true hval, ?_⟩
  rw [List.mem_append] at hmem
  rcases hmem with hm | hm
  · fin_cases hm <;> first | exact jsOptStr_ne_null _ | simp
  · cases extra <;>
      · unfold ExtraFields.props at hm
        fin_cases hm <;> first | exact jsOptStr_ne_null _ | simp

lemma assemble_key_absent (extra : ExtraFields) (content : JSONContent)
    (user : User) (refId : String) (replyTo : Option String) (now : Int) :
    (replyTo = none →
      "replyToCommentId"
        ∉ (assembleComment extra content user refId replyTo now).map Prod.fst)
    ∧ (user.avatarUrl = none →
      "userAvatarUrl"
        ∉ (assembleComment extra content user refId replyTo now).map Prod.fst)
    ∧ (∀ cid, extra = ExtraFields.onContract cid none →
      "answerOutcome"
        ∉ (assembleComment extra content user refId replyTo now).map Prod.fst) := by
  refine ⟨?_, ?_, ?_⟩
  · rintro rfl
    rw [List.mem_map]
    rintro ⟨p, hp, hfst⟩
    unfold assembleComment removeUndefinedProps at hp
    rw [List.mem_filter] at hp
    obtain ⟨hmem, hval⟩ := hp
    rw [List.mem_append] at hmem
    rcases hmem with hm | hm
    · fin_cases hm <;> simp_all [jsOptStr]
    · cases extra <;>
        · unfold ExtraFields.props at hm
          fin_cases hm <;> simp_all [jsOptStr]
  · intro havatar
    rw [List.mem_map]
    rintro ⟨p, hp, hfst⟩
    unfold assembleComment removeUndefinedProps at hp
    rw [List.mem_filter] at hp
    obtain ⟨hmem, hval⟩ := hp
    rw [List.mem_append] at hmem
    rcases hmem with hm | hm
    · fin_cases hm <;> simp_all [jsOptStr]
    · cases extra <;>
        · unfold ExtraFields.props at hm
          fin_cases hm <;> simp_all [jsOptStr]
  · rintro cid rfl
    rw [List.mem_map]
    rintro ⟨p, hp, hfst⟩
    unfold assembleComment removeUndefinedProps at hp
    rw [List.mem_filter] at hp
    obtain ⟨hmem, hval⟩ := hp
    rw [List.mem_append] at hmem
    rcases hmem with hm | hm
    · fin_cases hm <;> simp_all [jsOptStr]
    · unfold ExtraFields.props at hm
      fin_cases hm <;> simp_all [jsOptStr]

/-- C6: the record persisted by the shared creation routine strips every
field whose value is undefined: no field of the written record holds
undefined or null, and an omitted reply-target id, author avatar URL or
answer outcome leaves the corresponding field absent entirely. -/
theorem persisted_record_strips_undefined (surfaceId : String)
    (extra : ExtraFields) (content : JSONContent) (user : User) (ref : DocRef)
    (replyTo : Option String) (bounty : Option Bool) (now : Int) :
    Effect.wroteDoc ref (assembleComment extra content user ref.id replyTo now)
        ∈ (createComment surfaceId extra content user ref replyTo bounty now
            false).1
    ∧ (∀ p ∈ assembleComment extra content user ref.id replyTo now,
        p.2 ≠ JsVal.undef ∧ p.2 ≠ JsVal.null)
    ∧ (replyTo = none →
        "replyToCommentId"
          ∉ (assembleComment extra content user ref.id replyTo now).map Prod.fst)
    ∧ (user.avatarUrl = none →
        "userAvatarUrl"
          ∉ (assembleComment extra content user ref.id replyTo now).map Prod.fst)
    ∧ (∀ cid, extra = ExtraFields.onContract cid none →
        "answerOutcome"
          ∉ (assembleComment extra content user ref.id replyTo now).map Prod.fst) := by
  refine ⟨?_, assemble_no_null extra content user ref.id replyTo now,
    (assemble_key_absent extra content user ref.id replyTo now).1,
    (assemble_key_absent extra content user ref.id replyTo now).2.1,
    (assemble_key_absent extra content user ref.id replyTo now).2.2⟩
  simp [createComment]

/-- C6 witness: a contract comment written with no reply target, no avatar
URL and no answer outcome carries none of the three fields. -/
theorem persisted_record_strips_undefined_witness :
    ("replyToCommentId"
        ∉ (assembleComment (ExtraFields.onContract "c1" none) exContent exUser
            "cm9" none 500).map Prod.fst)
    ∧ ("userAvatarUrl"
        ∉ (assembleComment (ExtraFields.onContract "c1" none) exContent exUser
            "cm9" none 500).map Prod.fst)
    ∧ ("answerOutcome"
        ∉ (assembleComment (ExtraFields.onContract "c1" none) exContent exUser
            "cm9" none 500).map Prod.fst) :=
  ⟨(persisted_record_strips_undefined "c1" (ExtraFields.onContract "c1" none)
      exContent exUser ⟨"contracts", "c1", "comments", "cm9"⟩ none none
      500).2.2.1 rfl,
   (persisted_record_strips_undefined "c1" (ExtraFields.onContract "c1" none)
      exContent exUser ⟨"contracts", "c1", "comments", "cm9"⟩ none none
      500).2.2.2.1 rfl,
   (persisted_record_strips_undefined "c1" (ExtraFields.onContract "c1" none)
      exContent exUser ⟨"contracts", "c1", "comments", "cm9"⟩ none none
      500).2.2.2.2 "c1" rfl⟩

lemma trackProps_mem_fixed (surfaceId : String) (extra : ExtraFields)
    (user : User) (refId : String) (replyTo : Option String)
    (bounty : Option Bool) :
    ("user", JsVal.juser user)
        ∈ trackProps surfaceId extra user refId replyTo bounty
    ∧ ("commentId", JsVal.str refId)
        ∈ trackProps surfaceId extra user refId replyTo bounty
    ∧ ("surfaceId", JsVal.str surfaceId)
        ∈ trackProps surfaceId extra user refId replyTo bounty := by
  cases extra <;> cases bounty <;> cases replyTo <;>
    simp [trackProps, removeUndefinedProps, jsOptStr, jsOptBool,
      ExtraFields.commentType]

lemma trackProps_replyTo_iff (surfaceId : String) (extra : ExtraFields)
    (user : User) (refId : String) (replyTo : Option String)
    (bounty : Option Bool) :
    ("replyToCommentId"
        ∈ (trackProps surfaceId extra user refId replyTo bounty).map Prod.fst)
      ↔ replyTo.isSome := by
  cases extra <;> cases bounty <;> cases replyTo <;>
    simp [trackProps, removeUndefinedProps, jsOptStr, jsOptBool,
      ExtraFields.commentType]

lemma trackProps_bounty_iff (surfaceId : String) (extra : ExtraFields)
    (user : User) (refId : String) (replyTo : Option String)
    (bounty : Option Bool) :
    ("onContractWithBounty"
        ∈ (trackProps surfaceId extra user refId replyTo bounty).map Prod.fst)
      ↔ (extra.commentType = "contract" ∧ bounty.isSome) := by
  cases extra <;> cases bounty <;> cases replyTo <;>
    simp [trackProps, removeUndefinedProps, jsOptStr, jsOptBool,
      ExtraFields.commentType]

/-- C7: the creation routine's first effect, whether or not the write
subsequently fails, is an analytics event named commentType message,
carrying the user, the new comment id and the parent id; the reply-target
id is carried exactly when one was supplied, and the bounty flag exactly
when the comment is a contract comment with a supplied flag. -/
theorem track_event_unconditional (surfaceId : String) (extra : ExtraFields)
    (content : JSONContent) (user : User) (ref : DocRef)
    (replyTo : Option String) (bounty : Option Bool) (now : Int)
    (writeFails : Bool) :
    ∃ ev : TrackEvent,
      (createComment surfaceId extra content user ref replyTo bounty now
          writeFails).1.head? = some (Effect.tracked ev)
      ∧ ev.name = extra.commentType ++ " message"
      ∧ ("user", JsVal.juser user) ∈ ev.props
      ∧ ("commentId", JsVal.str ref.id) ∈ ev.props
      ∧ ("surfaceId", JsVal.str surfaceId) ∈ ev.props
      ∧ (("replyToCommentId" ∈ ev.props.map Prod.fst) ↔ replyTo.isSome)
      ∧ (("onContractWithBounty" ∈ ev.props.map Prod.fst)
          ↔ (extra.commentType = "contract" ∧ bounty.isSome))
      ∧ (createComment surfaceId extra content user ref replyTo bounty now
            true).1.head?
        = (createComment surfaceId extra content user ref replyTo bounty now
            false).1.head? := by
  refine ⟨⟨extra.commentType ++ " message",
      trackProps surfaceId extra user ref.id replyTo bounty⟩, ?_, rfl,
    (trackProps_mem_fixed surfaceId extra user ref.id replyTo bounty).1,
    (trackProps_mem_fixed surfaceId extra user ref.id replyTo bounty).2.1,
    (trackProps_mem_fixed surfaceId extra user ref.id replyTo bounty).2.2,
    trackProps_replyTo_iff surfaceId extra user ref.id replyTo bounty,
    trackProps_bounty_iff surfaceId extra user ref.id replyTo bounty, rfl⟩
  cases writeFails <;> rfl

/-- C7 witness: the statement instantiated for a group comment with a
reply target, under a failing write. -/
theorem track_event_unconditional_witness :
    ∃ ev : TrackEvent,
      (createComment "g1" (ExtraFields.onGroup "g1") exContent exUser
          ⟨"groups", "g1", "comments", "cm9"⟩ (some "cm1") none 500
          true).1.head? = some (Effect.tracked ev)
      ∧ ev.name = (ExtraFields.onGroup "g1").commentType ++ " message"
      ∧ ("user", JsVal.juser exUser) ∈ ev.props
      ∧ ("commentId", JsVal.str (DocRef.id ⟨"groups", "g1", "comments", "cm9"⟩))
          ∈ ev.props
      ∧ ("surfaceId", JsVal.str "g1") ∈ ev.props
      ∧ (("replyToCommentId" ∈ ev.props.map Prod.fst)
          ↔ (some "cm1").isSome)
      ∧ (("onContractWithBounty" ∈ ev.props.map Prod.fst)
          ↔ ((ExtraFields.onGroup "g1").commentType = "contract"
              ∧ (none : Option Bool).isSome))
      ∧ (createComment "g1" (ExtraFields.onGroup "g1") exContent exUser
            ⟨"groups", "g1", "comments", "cm9"⟩ (some "cm1") none 500
            true).1.head?
        = (createComment "g1" (ExtraFields.onGroup "g1") exContent exUser
            ⟨"groups", "g1", "comments", "cm9"⟩ (some "cm1") none 500
            false).1.head? :=
  track_event_unconditional "g1" (ExtraFields.onGroup "g1") exContent exUser
    ⟨"groups", "g1", "comments", "cm9"⟩ (some "cm1") none 500 true

lemma createdTime_of_intGt {d : StoredDoc} {v : Int}
    (h : matchesFilter d (QFilter.intGt "createdTime" v) = true) :
    v < d.createdTime := by
  simp only [matchesFilter] at h
  unfold StoredDoc.createdTime
  cases hg : getField d.fields "createdTime" <;> rw [hg] at h <;>
    first
      | exact of_decide_eq_true h
      | simp at h

/-- C8: the recent-comments query is a single value fixed by the
construction-time clock: its creation-time lower bound is exactly
constructionNow minus three days and both the one-shot accessor and the
subscription accessor run this very query, whose results therefore always
respect the construction-time bound. -/
theorem recent_comments_fixed_bound (constructionNow : Int) :
    listenForRecentCommentsQuery constructionNow
        = recentCommentsQuery constructionNow
    ∧ (∀ db, getRecentComments constructionNow db
        = runQuery db (recentCommentsQuery constructionNow))
    ∧ (recentCommentsQuery constructionNow).filters
        = [QFilter.intGt "createdTime" (constructionNow - 3 * DAY_IN_MS)]
    ∧ (∀ db, ∀ d ∈ getRecentComments constructionNow db,
        constructionNow - 3 * DAY_IN_MS < d.createdTime) := by
  refine ⟨rfl, fun db => rfl, rfl, ?_⟩
  intro db d hd
  obtain ⟨-, -, hfil⟩ := mem_runQuery hd
  exact createdTime_of_intGt
    (hfil (QFilter.intGt "createdTime" (constructionNow - 3 * DAY_IN_MS))
      (by simp [recentCommentsQuery]))

/-- C8 witness: at construction time 300 both accessors use the query with
bound 300 minus three days, and a stored comment of time 100 is returned
with its creation time above that bound. -/
theorem recent_comments_fixed_bound_witness :
    (listenForRecentCommentsQuery 300 = recentCommentsQuery 300
      ∧ getRecentComments 300 exDb = runQuery exDb (recentCommentsQuery 300))
    ∧ (exDoc1 ∈ getRecentComments 300 exDb
      ∧ 300 - 3 * DAY_IN_MS < exDoc1.createdTime) :=
  ⟨⟨(recent_comments_fixed_bound 300).1,
    (recent_comments_fixed_bound 300).2.1 exDb⟩,
   by decide,
   (recent_comments_fixed_bound 300).2.2.2 exDb exDoc1 (by decide)⟩

/-- C9: the per-user market-comment query factory returns a reusable
query value, and executing it returns only records whose userId is the
requested id and whose commentType is contract (hence never group or post
records), ordered by creation time descending. -/
theorem user_comments_query_spec (uid : String) (db : List StoredDoc) :
    getUserCommentsQuery uid
        = ⟨QSource.collectionGroup "comments",
           [QFilter.strEq "userId" uid,
            QFilter.strEq "commentType" "contract"], true, none⟩
    ∧ (∀ d ∈ runQuery db (getUserCommentsQuery uid),
        getField d.fields "userId" = JsVal.str uid
        ∧ getField d.fields "commentType" = JsVal.str "contract"
        ∧ getField d.fields "commentType" ≠ JsVal.str "group"
        ∧ getField d.fields "commentType" ≠ JsVal.str "post")
    ∧ (runQuery db (getUserCommentsQuery uid)).Sorted byCreatedTimeDesc := by
  refine ⟨rfl, ?_, sorted_runQuery db _ rfl⟩
  intro d hd
  obtain ⟨-, -, hfil⟩ := mem_runQuery hd
  have h1 := hfil (QFilter.strEq "userId" uid) (by simp [getUserCommentsQuery])
  have h2 := hfil (QFilter.strEq "commentType" "contract")
    (by simp [getUserCommentsQuery])
  unfold matchesFilter at h1 h2
  have e1 := of_decide_eq_true h1
  have e2 := of_decide_eq_true h2
  refine ⟨e1, e2, ?_, ?_⟩ <;> rw [e2] <;> simp

/-- C9 witness: on a store holding a contract comment and a group comment
by the same author, the returned record is the contract one. -/
theorem user_comments_query_spec_witness :
    (exUserDoc ∈ runQuery exDb2 (getUserCommentsQuery "u1")
      ∧ (getField exUserDoc.fields "userId" = JsVal.str "u1"
        ∧ getField exUserDoc.fields "commentType" = JsVal.str "contract"
        ∧ getField exUserDoc.fields "commentType" ≠ JsVal.str "group"
        ∧ getField exUserDoc.fields "commentType" ≠ JsVal.str "post"))
    ∧ exGroupDoc ∉ runQuery exDb2 (getUserCommentsQuery "u1")
    ∧ (runQuery exDb2 (getUserCommentsQuery "u1")).Sorted byCreatedTimeDesc :=
  ⟨⟨by decide,
    (user_comments_query_spec "u1" exDb2).2.1 exUserDoc (by decide)⟩,
   by decide,
   (user_comments_query_spec "u1" exDb2).2.2⟩
